import Mathlib

/-!
Shallow embedding of the suspend/resume execution-state engine of
`src/StateManager.h` (class `StateManager` over `struct FunctionState`).

The C++ heap layout is a simple path of frames: every frame has at most one
`childState`, the `parentState` pointers invert the `childState` pointers, and
`currentState` points to one frame on that path.  We embed the reachable heap
as a zipper: the list of strict ancestors of the current frame (nearest parent
first), the current frame itself (`none` models `currentState == 0`), and the
list of strict descendants (immediate child first).  Frames that the C++ code
leaks (they become unreachable from `currentState`) simply drop out of the
zipper; a separate counter `destroyFreedCount` tracks how many frames the
`destroy` routine actually passes to `delete`.

Operations that dereference `currentState` without a null check return
`Option`: `none` models the null-pointer dereference.  Machine arithmetic:
step values are only ever copied, so they live in `Nat`; the one arithmetic
expression, `millis() + delay` on a 32-bit `unsigned long`, is taken modulo
2^32 with the clock value `now` passed explicitly.
-/

namespace StateMgr

/-- `static const uint8_t stepStart = 1`. -/
def stepStart : Nat := 1

/-- `static const uint8_t stepListen = 2`. -/
def stepListen : Nat := 2

/-- `static const uint8_t stepSend = 3`. -/
def stepSend : Nat := 3

/-- `static const uint8_t stepReceive = 4`. -/
def stepReceive : Nat := 4

/-- `static const uint8_t stepPower = 5`. -/
def stepPower : Nat := 5

/-- `static const uint8_t stepTimeout = 6`. -/
def stepTimeout : Nat := 6

/-- `static const uint8_t stepEnd = 7`. -/
def stepEnd : Nat := 7

/-- `static const uint8_t stepTest1 = 91`. -/
def stepTest1 : Nat := 91

/-- `static const uint8_t stepTest2 = 92`. -/
def stepTest2 : Nat := 92

/-- `static const uint8_t stepTest3 = 93`. -/
def stepTest3 : Nat := 93

/-- `static const uint8_t stepTest4 = 94`. -/
def stepTest4 : Nat := 94

/-- `static const uint8_t stepSuccess = 101`. -/
def stepSuccess : Nat := 101

/-- `static const uint8_t stepFailure = 102`. -/
def stepFailure : Nat := 102

/-- Two to the 32: the modulus of Arduino `unsigned long` arithmetic. -/
def ulongMod : Nat := 4294967296

/-- One execution frame: `struct FunctionState`.  The `parentState` /
`childState` pointers are represented by the frame's position in the
`StateManager` zipper, not stored in the frame. -/
structure FunctionState where
  functionName : String := ""
  currentStep : Nat := 0
  nextStep : Nat := 0
  delayUntil : Nat := 0
  int1 : Int := 0
  uint1 : Nat := 0
  ulong1 : Nat := 0
  string1 : String := ""
deriving DecidableEq, Repr

/-- The engine state: the frame chain reachable from `currentState`, as a
zipper centred on the current frame.  `parents` are the strict ancestors of
the current frame, nearest parent first; `children` are its strict
descendants, immediate child first.  `current = none` models
`currentState == 0` (then the reachable chain is empty). -/
structure StateManager where
  parents : List FunctionState := []
  current : Option FunctionState := none
  children : List FunctionState := []
deriving DecidableEq, Repr

/-- The freshly constructed engine: `FunctionState *currentState = 0`. -/
def emptySM : StateManager := {}

/-- `StateManager::createState` (without the parent link, which the zipper
position supplies): a fresh frame with the given name and first step. -/
def createState (functionName : String) (firstStep : Nat) : FunctionState :=
  { functionName := functionName, currentStep := firstStep }

/-- `StateManager::getStatus`: `0` when no current frame exists, else the
current frame's `currentStep`. -/
def getStatus (sm : StateManager) : Nat :=
  match sm.current with
  | none => 0
  | some f => f.currentStep

/-- `StateManager::destroy`: a no-op when `currentState` is null; otherwise it
deletes `currentState->childState` (when present) and `currentState`, and
clears `currentState`.  Ancestor frames and descendants below the first child
become unreachable, so the reachable chain is empty afterwards. -/
def destroy (sm : StateManager) : StateManager :=
  match sm.current with
  | none => sm
  | some _ => { parents := [], current := none, children := [] }

/-- The number of frames `StateManager::destroy` actually passes to `delete`:
the current frame plus its immediate child when one exists.  `FunctionState`
has no destructor, so `delete` frees exactly one frame. -/
def destroyFreedCount (sm : StateManager) : Nat :=
  match sm.current with
  | none => 0
  | some _ => 1 + (if sm.children.isEmpty then 0 else 1)

/-- The number of frames on the reachable chain. -/
def chainSize (sm : StateManager) : Nat :=
  sm.parents.length + (match sm.current with | none => 0 | some _ => 1)
    + sm.children.length

/-- `StateManager::init`: delegates to `destroy`. -/
def init (sm : StateManager) : StateManager := destroy sm

/-- `StateManager::resetDelay`: reads and clears the current frame's
`delayUntil`.  Dereferences `currentState` with no null check. -/
def resetDelay (sm : StateManager) : Option (StateManager × Nat) :=
  match sm.current with
  | none => none
  | some f =>
    some ({ sm with current := some { f with delayUntil := 0 } }, f.delayUntil)

/-- `StateManager::begin(functionName, firstStep)`: create the root frame,
resume the current frame, descend into a matching child, or replace the child
with a fresh frame.  Returns the new state and the returned step. -/
def begin (functionName : String) (firstStep : Nat) (sm : StateManager) :
    StateManager × Nat :=
  match sm.current with
  | none =>
    let st := createState functionName firstStep
    ({ parents := [], current := some st, children := [] }, st.currentStep)
  | some cur =>
    if cur.functionName = functionName then
      (sm, cur.currentStep)
    else
      match sm.children with
      | child :: rest =>
        if child.functionName = functionName then
          ({ parents := cur :: sm.parents, current := some child,
             children := rest }, child.currentStep)
        else
          let st := createState functionName firstStep
          ({ parents := cur :: sm.parents, current := some st,
             children := [] }, st.currentStep)
      | [] =>
        let st := createState functionName firstStep
        ({ parents := cur :: sm.parents, current := some st,
           children := [] }, st.currentStep)

/-- `StateManager::setState(int int1)`. -/
def setStateInt (v : Int) (sm : StateManager) : Option StateManager :=
  match sm.current with
  | none => none
  | some f => some { sm with current := some { f with int1 := v } }

/-- `StateManager::setState(uint8_t uint1)`. -/
def setStateUint (v : Nat) (sm : StateManager) : Option StateManager :=
  match sm.current with
  | none => none
  | some f => some { sm with current := some { f with uint1 := v } }

/-- `StateManager::setState(unsigned long ulong1)`. -/
def setStateUlong (v : Nat) (sm : StateManager) : Option StateManager :=
  match sm.current with
  | none => none
  | some f => some { sm with current := some { f with ulong1 := v } }

/-- `StateManager::setState(const String &string1)`. -/
def setStateString (v : String) (sm : StateManager) : Option StateManager :=
  match sm.current with
  | none => none
  | some f => some { sm with current := some { f with string1 := v } }

/-- `StateManager::getState(int &int1)`: the value written to the reference
parameter. -/
def getStateInt (sm : StateManager) : Option Int :=
  match sm.current with
  | none => none
  | some f => some f.int1

/-- `StateManager::getState(uint8_t &uint1)`. -/
def getStateUint (sm : StateManager) : Option Nat :=
  match sm.current with
  | none => none
  | some f => some f.uint1

/-- `StateManager::getState(unsigned long &ulong1)`. -/
def getStateUlong (sm : StateManager) : Option Nat :=
  match sm.current with
  | none => none
  | some f => some f.ulong1

/-- `StateManager::getState(String &string1)`. -/
def getStateString (sm : StateManager) : Option String :=
  match sm.current with
  | none => none
  | some f => some f.string1

/-- `StateManager::popState(currentStep0, nextStep0)`: returns early when
`currentState` is null; stores the two steps in the current frame; when
`nextStep0` is nonzero and the frame has no child, advances `currentStep` to
`nextStep0` immediately and clears `nextStep`; then makes the parent current
when one exists. -/
def popState (currentStep0 nextStep0 : Nat) (sm : StateManager) :
    StateManager :=
  match sm.current with
  | none => sm
  | some f =>
    let f1 := { f with currentStep := currentStep0, nextStep := nextStep0 }
    let f2 := if nextStep0 ≠ 0 ∧ sm.children.isEmpty then
        { f1 with currentStep := nextStep0, nextStep := 0 }
      else f1
    match sm.parents with
    | [] => { sm with current := some f2 }
    | p :: ps => { parents := ps, current := some p,
                   children := f2 :: sm.children }

/-- Helper for `suspend`: `currentState->delayUntil = millis() + delay`,
applied to the current frame when it exists. -/
def setCurrentDelay (d : Nat) (sm : StateManager) : StateManager :=
  match sm.current with
  | none => sm
  | some f => { sm with current := some { f with delayUntil := d } }

/-- `StateManager::transitionState`: dereferences `currentState` with no null
check (hence `Option`).  Reads the current frame's child; bubbles a nonzero
child delay up to the current frame; when the child's step is terminal,
either propagates `stepFailure` or advances to the stored `nextStep`, then
deletes the child (its own descendants become unreachable).  The returned
`Bool` is the C++ return value (`true` iff a transition happened). -/
def transitionState (sm : StateManager) : Option (StateManager × Bool) :=
  match sm.current with
  | none => none
  | some f =>
    match sm.children with
    | [] => some (sm, false)
    | c :: rest =>
      let f1 := if c.delayUntil ≠ 0 then { f with delayUntil := c.delayUntil }
        else f
      let c1 := if c.delayUntil ≠ 0 then { c with delayUntil := 0 } else c
      if c1.currentStep ≠ stepSuccess ∧ c1.currentStep ≠ stepFailure then
        some ({ parents := sm.parents, current := some f1,
                children := c1 :: rest }, false)
      else
        let f2 := if c1.currentStep = stepFailure then
            { f1 with currentStep := stepFailure }
          else
            { f1 with currentStep := f1.nextStep, nextStep := 0 }
        some ({ parents := sm.parents, current := some f2,
                children := [] }, true)

/-- `StateManager::suspend(nextStep, delay)`: dereferences `currentState`
with no null check; pops the current frame keeping its step, sets the
ascended-to frame's `delayUntil` to `millis() + delay` (mod 2^32) when
`delay > 0`, runs the transition check, and returns `false` iff the resulting
current frame's step is `stepFailure`.  `now` is the value of `millis()`. -/
def suspend (nextStep d now : Nat) (sm : StateManager) :
    Option (StateManager × Bool) :=
  match sm.current with
  | none => none
  | some f =>
    let sm1 := popState f.currentStep nextStep sm
    let sm2 := if 0 < d then setCurrentDelay ((now + d) % ulongMod) sm1
      else sm1
    match transitionState sm2 with
    | none => none
    | some (sm3, _) =>
      match sm3.current with
      | none => none
      | some g =>
        some (sm3, if g.currentStep = stepFailure then false else true)

/-- `StateManager::suspend()` (no arguments): dereferences `currentState` to
read its step, then suspends to the same step with no delay. -/
def suspendSame (now : Nat) (sm : StateManager) : Option (StateManager × Bool) :=
  match sm.current with
  | none => none
  | some f => suspend f.currentStep 0 now sm

/-- `StateManager::end(status)`: pops with `stepSuccess` or `stepFailure`,
runs the transition check (which dereferences `currentState` with no null
check), and returns `status`. -/
def end' (status : Bool) (sm : StateManager) : Option (StateManager × Bool) :=
  let sm1 := popState (if status then stepSuccess else stepFailure) 0 sm
  match transitionState sm1 with
  | none => none
  | some (sm2, _) => some (sm2, status)

/-- Iterated `end(false)`: the driver-visible sequence in which each frame,
upon observing failure, itself calls `end(false)`. -/
def endFalseIter : Nat → StateManager → Option StateManager
  | 0, sm => some sm
  | n + 1, sm =>
    match end' false sm with
    | none => none
    | some (sm1, _) => endFalseIter n sm1

/-- Iterated no-argument `suspend()`: one pure yield per ascension. -/
def suspendIter : Nat → Nat → StateManager → Option StateManager
  | 0, _, sm => some sm
  | n + 1, now, sm =>
    match suspendSame now sm with
    | none => none
    | some (sm1, _) => suspendIter n now sm1

/-! ## General lemmas about `begin` -/

/-- Resuming the current frame: when the current frame's name matches,
`begin` mutates nothing and returns the stored step. -/
lemma begin_resume (sm : StateManager) (f : FunctionState) (name : String)
    (fs : Nat) (hc : sm.current = some f) (hn : f.functionName = name) :
    StateMgr.begin name fs sm = (sm, f.currentStep) := by
  simp only [StateMgr.begin, hc]
  rw [if_pos hn]

/-- After any `begin name fs` call, the current frame exists and carries the
requested `name`. -/
lemma begin_current_name (sm : StateManager) (name : String) (fs : Nat) :
    ∃ f, ((StateMgr.begin name fs sm).1).current = some f
      ∧ f.functionName = name := by
  simp only [StateMgr.begin]
  cases hc : sm.current with
  | none => exact ⟨createState name fs, rfl, rfl⟩
  | some cur =>
    dsimp only
    by_cases hn : cur.functionName = name
    · rw [if_pos hn]
      exact ⟨cur, hc, hn⟩
    · rw [if_neg hn]
      cases hch : sm.children with
      | nil => exact ⟨createState name fs, rfl, rfl⟩
      | cons child rest =>
        dsimp only
        by_cases hcn : child.functionName = name
        · rw [if_pos hcn]
          exact ⟨child, rfl, hcn⟩
        · rw [if_neg hcn]
          exact ⟨createState name fs, rfl, rfl⟩

/-- C1: for every sequence of `begin` calls with the same
`(functionName, firstStep)` and no intervening `suspend` or `end`, each call
after the first returns the step stored in the current frame (`getStatus` of
the state) and performs no mutation of the engine state: the second `begin`
maps the post-first-`begin` state to itself, and every later call then
repeats the second one verbatim. -/
theorem begin_idempotent_resume (sm : StateManager) (name : String) (fs : Nat) :
    StateMgr.begin name fs (StateMgr.begin name fs sm).1
      = ((StateMgr.begin name fs sm).1,
         getStatus (StateMgr.begin name fs sm).1) := by
  obtain ⟨f, hf, hn⟩ := begin_current_name sm name fs
  rw [begin_resume _ f name fs hf hn]
  simp [getStatus, hf]

/-- C4: calling `begin` with a `functionName` different from the current
frame's name either descends into a matching child (returning its stored step
and ignoring `firstStep`), or destroys any existing child and creates a fresh
child frame at `firstStep`, linked under the current frame and made
current. -/
theorem begin_nested_call (sm : StateManager) (f : FunctionState)
    (name : String) (fs : Nat) (c : FunctionState) (cs : List FunctionState)
    (hc : sm.current = some f) (hn : f.functionName ≠ name) :
    (sm.children = c :: cs → c.functionName = name →
      StateMgr.begin name fs sm
        = ({ parents := f :: sm.parents, current := some c, children := cs },
           c.currentStep))
    ∧ (sm.children.head?.map (fun g => g.functionName) ≠ some name →
      StateMgr.begin name fs sm
        = ({ parents := f :: sm.parents, current := some (createState name fs),
             children := [] }, fs)) := by
  constructor
  · intro hch hcn
    simp only [StateMgr.begin, hc, hch]
    rw [if_neg hn, if_pos hcn]
  · intro hhead
    simp only [StateMgr.begin, hc]
    rw [if_neg hn]
    cases hch : sm.children with
    | nil => rfl
    | cons c0 cs0 =>
      dsimp only
      rw [if_neg (by rw [hch] at hhead; simpa using hhead)]
      rfl

/-- Witness for C4 at a concrete engine state: current frame `A`, child `B`
at step 4; `begin "B" 9` descends into `B` ignoring `firstStep = 9`, while
`begin "C" 9` discards `B` and creates a fresh `C` frame at step 9. -/
theorem begin_nested_call_witness :
    StateMgr.begin "B" 9
        { parents := [], current := some (createState "A" 1),
          children := [createState "B" 4] }
      = ({ parents := [createState "A" 1], current := some (createState "B" 4),
           children := [] }, 4)
    ∧ StateMgr.begin "C" 9
        { parents := [], current := some (createState "A" 1),
          children := [createState "B" 4] }
      = ({ parents := [createState "A" 1], current := some (createState "C" 9),
           children := [] }, 9) := by
  constructor
  · exact (begin_nested_call _ (createState "A" 1) "B" 9 (createState "B" 4) []
      rfl (by decide)).1 rfl rfl
  · exact (begin_nested_call _ (createState "A" 1) "C" 9 (createState "B" 4) []
      rfl (by decide)).2 (by decide)

/-- The engine state reached by `begin("A", 1); begin("B", 1)`: a two-frame
chain with the current frame at depth 1. -/
def smLeak : StateManager :=
  (StateMgr.begin "B" 1 (StateMgr.begin "A" 1 emptySM).1).1

/-- C8: `destroy` (hence `init` and the destructor) passes only
`currentState` and its immediate child to `delete`.  On the reachable
two-frame chain `smLeak` it frees exactly one frame (frame `B`; the root
frame `A` is leaked), even though it does reset the engine to empty with
`getStatus` returning `0`. -/
theorem destroy_frees_only_current_and_child :
    chainSize smLeak = 2 ∧ destroyFreedCount smLeak = 1
    ∧ destroy smLeak = emptySM ∧ init smLeak = emptySM
    ∧ getStatus (destroy smLeak) = 0 := by decide

/-- C9: `getStatus` returns `0` on the freshly constructed engine and after
`destroy`/`init`; `0` is distinct from `stepSuccess`, `stepFailure` and every
defined application step constant; and on a non-empty engine `getStatus`
returns the current frame's `currentStep` (it is a pure read: the state is
not an output of the operation). -/
theorem getStatus_spec (sm : StateManager) (f : FunctionState) :
    getStatus emptySM = 0
    ∧ getStatus (destroy sm) = 0
    ∧ getStatus (init sm) = 0
    ∧ (0 : Nat) ∉ [stepStart, stepListen, stepSend, stepReceive, stepPower,
        stepTimeout, stepEnd, stepTest1, stepTest2, stepTest3, stepTest4,
        stepSuccess, stepFailure]
    ∧ (sm.current = some f → getStatus sm = f.currentStep)
    ∧ (sm.current = none → getStatus sm = 0) := by
  refine ⟨rfl, ?_, ?_, by decide, ?_, ?_⟩
  · cases hc : sm.current with
    | none => simp [destroy, getStatus, hc]
    | some g => simp [destroy, getStatus, hc]
  · cases hc : sm.current with
    | none => simp [init, destroy, getStatus, hc]
    | some g => simp [init, destroy, getStatus, hc]
  · intro h; simp [getStatus, h]
  · intro h; simp [getStatus, h]

/-- Witness for C9 at a concrete state: a root frame at step 3. -/
theorem getStatus_spec_witness :
    getStatus { parents := [], current := some (createState "A" 3),
                children := [] } = (createState "A" 3).currentStep
    ∧ getStatus emptySM = 0 := by
  refine ⟨(getStatus_spec _ (createState "A" 3)).2.2.2.2.1 rfl, ?_⟩
  exact (getStatus_spec emptySM (createState "A" 3)).1

/-! ## Lemmas: the operations keep a current frame once one exists -/

/-- `popState` never clears the current frame. -/
lemma popState_current_some (a b : Nat) (sm : StateManager)
    (f : FunctionState) (h : sm.current = some f) :
    ∃ g, (popState a b sm).current = some g := by
  simp only [popState, h]
  cases sm.parents with
  | nil => exact ⟨_, rfl⟩
  | cons p ps => exact ⟨p, rfl⟩

/-- `setCurrentDelay` rewrites only the current frame's `delayUntil`. -/
lemma setCurrentDelay_current_some (d : Nat) (sm : StateManager)
    (f : FunctionState) (h : sm.current = some f) :
    (setCurrentDelay d sm).current = some { f with delayUntil := d } := by
  simp only [setCurrentDelay, h]

/-- When a current frame exists, `transitionState` succeeds and keeps a
current frame. -/
lemma transitionState_some (sm : StateManager) (f : FunctionState)
    (h : sm.current = some f) :
    ∃ sm' b g, transitionState sm = some (sm', b) ∧ sm'.current = some g := by
  simp only [transitionState, h]
  cases sm.children with
  | nil => exact ⟨sm, false, f, rfl, h⟩
  | cons c rest =>
    dsimp only
    repeat' split
    all_goals exact ⟨_, _, _, rfl, rfl⟩

/-- When a current frame exists, `suspend` does not hit the null-pointer
branch. -/
lemma suspend_some (ns d now : Nat) (sm : StateManager) (f : FunctionState)
    (h : sm.current = some f) : (suspend ns d now sm).isSome := by
  simp only [suspend, h]
  obtain ⟨g, hg⟩ := popState_current_some f.currentStep ns sm f h
  have h2 : ∃ g2, (if 0 < d then
      setCurrentDelay ((now + d) % ulongMod) (popState f.currentStep ns sm)
      else popState f.currentStep ns sm).current = some g2 := by
    split
    · exact ⟨_, setCurrentDelay_current_some _ _ g hg⟩
    · exact ⟨g, hg⟩
  obtain ⟨g2, hg2⟩ := h2
  obtain ⟨sm3, b3, g3, ht, hc3⟩ := transitionState_some _ g2 hg2
  rw [ht]
  simp [hc3]

/-- When a current frame exists, `end` does not hit the null-pointer branch
of its transition check. -/
lemma end'_some (st : Bool) (sm : StateManager) (f : FunctionState)
    (h : sm.current = some f) : (end' st sm).isSome := by
  simp only [end']
  obtain ⟨g, hg⟩ :=
    popState_current_some (if st then stepSuccess else stepFailure) 0 sm f h
  obtain ⟨sm3, b3, g3, ht, hc3⟩ := transitionState_some _ g hg
  rw [ht]
  simp

/-- C10: `resetDelay`, all four `setState` and all four `getState` overloads,
and both `suspend` overloads dereference the current-frame pointer with no
null guard (they fault exactly when no current frame exists), and under the
precondition that a current frame exists the null-dereference branch is
unreachable; only `getStatus`, `popState` and `destroy` are total on the
empty engine (`end` and its transition check also fault there). -/
theorem null_guard_spec (sm : StateManager) (f : FunctionState) (v : Int)
    (u l ns d now a b : Nat) (s : String) (st : Bool) :
    (sm.current = none →
      resetDelay sm = none ∧ setStateInt v sm = none
      ∧ setStateUint u sm = none ∧ setStateUlong l sm = none
      ∧ setStateString s sm = none ∧ getStateInt sm = none
      ∧ getStateUint sm = none ∧ getStateUlong sm = none
      ∧ getStateString sm = none ∧ suspend ns d now sm = none
      ∧ suspendSame now sm = none ∧ transitionState sm = none
      ∧ end' st sm = none)
    ∧ (sm.current = some f →
      (resetDelay sm).isSome ∧ (setStateInt v sm).isSome
      ∧ (setStateUint u sm).isSome ∧ (setStateUlong l sm).isSome
      ∧ (setStateString s sm).isSome ∧ (getStateInt sm).isSome
      ∧ (getStateUint sm).isSome ∧ (getStateUlong sm).isSome
      ∧ (getStateString sm).isSome ∧ (suspend ns d now sm).isSome
      ∧ (suspendSame now sm).isSome ∧ (end' st sm).isSome)
    ∧ getStatus emptySM = 0 ∧ popState a b emptySM = emptySM
    ∧ destroy emptySM = emptySM := by
  refine ⟨?_, ?_, rfl, rfl, rfl⟩
  · intro h
    simp [resetDelay, setStateInt, setStateUint, setStateUlong, setStateString,
      getStateInt, getStateUint, getStateUlong, getStateString, suspend,
      suspendSame, end', popState, transitionState, h]
  · intro h
    refine ⟨?_, ?_, ?_, ?_, ?_, ?_, ?_, ?_, ?_, suspend_some ns d now sm f h,
      ?_, end'_some st sm f h⟩
    · simp [resetDelay, h]
    · simp [setStateInt, h]
    · simp [setStateUint, h]
    · simp [setStateUlong, h]
    · simp [setStateString, h]
    · simp [getStateInt, h]
    · simp [getStateUint, h]
    · simp [getStateUlong, h]
    · simp [getStateString, h]
    · simp only [suspendSame, h]
      exact suspend_some f.currentStep 0 now sm f h

/-- A one-frame engine state: a root frame `A` at step 1. -/
def smOne : StateManager :=
  { parents := [], current := some (createState "A" 1), children := [] }

/-- Witness for C10: on the empty engine `resetDelay` and `suspend` fault;
on a one-frame engine they succeed. -/
theorem null_guard_spec_witness :
    resetDelay emptySM = none
    ∧ suspend 2 5 100 emptySM = none
    ∧ (resetDelay smOne).isSome
    ∧ (suspend 2 5 100 smOne).isSome := by
  have h1 := (null_guard_spec emptySM (createState "A" 1) 0 0 2 5 100 0 0 0
    "" true).1 rfl
  have h2 := (null_guard_spec smOne (createState "A" 1) 0 0 0 2 5 100 0 0
    "" true).2.1 rfl
  exact ⟨h1.1, h1.2.2.2.2.2.2.2.2.2.1, h2.1, h2.2.2.2.2.2.2.2.2.2.1⟩

/-- C2: a parent `p` with an outstanding (non-terminal) child `c` calls
`suspend ns` — the matching suspend, which stores `ns` as the pending
continuation; the child is then resumed by `begin` and completes with
`end(true)`.  The parent's transition check sets the parent's `currentStep`
to exactly that `ns`, clears its `nextStep` to `0`, destroys the child frame
and clears the child link. -/
theorem end_true_applies_suspended_nextStep
    (p c : FunctionState) (cs : List FunctionState) (ns d now fs : Nat)
    (hname : p.functionName ≠ c.functionName)
    (hcs : c.currentStep ≠ stepSuccess) (hcf : c.currentStep ≠ stepFailure) :
    (((suspend ns d now
          { parents := [], current := some p, children := c :: cs }).bind
        fun r => end' true (StateMgr.begin c.functionName fs r.1).1).map
      fun r => (r.1.parents, r.1.children,
        r.1.current.map fun g => (g.functionName, g.currentStep, g.nextStep),
        r.2))
    = some ([], [], some (p.functionName, ns, 0), true) := by
  have hcs' : c.currentStep ≠ 101 := hcs
  have hcf' : c.currentStep ≠ 102 := hcf
  have hname' : ¬p.functionName = c.functionName := hname
  by_cases hd : 0 < d <;> by_cases hdel : c.delayUntil ≠ 0
  all_goals
    simp only [suspend, popState, setCurrentDelay, transitionState,
      StateMgr.begin, end', stepSuccess, stepFailure, hd, hdel, hcs', hcf',
      hname', List.isEmpty_cons, Option.some_bind, ne_eq, not_false_eq_true,
      not_true_eq_false, and_true, and_false, and_self, true_and, false_and,
      ite_true, ite_false, if_true, if_false, Bool.false_eq_true]
  all_goals simp

/-- Witness for C2: parent `A` at step 3 suspends to step 7 while child `B`
(step 1) is outstanding; `B` is resumed and ends successfully; `A` resumes at
exactly step 7 with `nextStep` cleared and no child. -/
theorem end_true_applies_suspended_nextStep_witness :
    (((suspend 7 0 0
          { parents := [], current := some (createState "A" 3),
            children := [createState "B" 1] }).bind
        fun r => end' true (StateMgr.begin "B" 9 r.1).1).map
      fun r => (r.1.parents, r.1.children,
        r.1.current.map fun g => (g.functionName, g.currentStep, g.nextStep),
        r.2))
    = some ([], [], some ("A", 7, 0), true) :=
  end_true_applies_suspended_nextStep (createState "A" 3) (createState "B" 1)
    [] 7 0 0 9 (by decide) (by decide) (by decide)

/-- A one-frame engine state: a root frame `A` paused at step 5. -/
def smA5 : StateManager :=
  { parents := [], current := some (createState "A" 5), children := [] }

/-- Counterexample to C5 as stated: `suspend(0, 0)` on a childless root frame
paused at step 5.  The claim says the frame's `currentStep` is immediately
set to the `nextStep` argument (`0`), but `popState` advances only when
`nextStep0` is nonzero, so the step stays 5. -/
theorem suspend_zero_nextStep_counterexample :
    ((suspend 0 0 0 smA5).map fun r => getStatus r.1) = some 5
    ∧ (5 : Nat) ≠ 0 := by decide

/-- Frame update: store the current and next step (the two writes at the
top of `popState`). -/
def setSteps (f : FunctionState) (cur nxt : Nat) : FunctionState :=
  { f with currentStep := cur, nextStep := nxt }

/-- Frame update: store a `delayUntil` deadline. -/
def setDelay (f : FunctionState) (d : Nat) : FunctionState :=
  { f with delayUntil := d }

/-- C5 (amended: the immediate advance requires a nonzero `nextStep`): for
`suspend ns d` with `ns ≠ 0` (and `ns` non-terminal, no overflow of
`now + d`, and no stale delays):
with no outstanding child the frame's `currentStep` becomes `ns` and its
`nextStep` is cleared (conjuncts 1 and 2); with an outstanding child the
`currentStep` is untouched and `ns` is stored in `nextStep` (conjunct 3);
the current pointer ascends to the parent when one exists (conjunct 2), the
root staying current otherwise (conjuncts 1 and 3); and when `d > 0` the
ascended-to frame's `delayUntil` becomes `now + d` before the transition
check runs. -/
theorem suspend_spec (f p c : FunctionState) (ps cs : List FunctionState)
    (ns d now : Nat) (hns0 : ns ≠ 0) (hns1 : ns ≠ stepSuccess)
    (hns2 : ns ≠ stepFailure) (hover : now + d < ulongMod)
    (hfd : f.delayUntil = 0) (hcd : c.delayUntil = 0)
    (hc1 : c.currentStep ≠ stepSuccess) (hc2 : c.currentStep ≠ stepFailure) :
    suspend ns d now { parents := [], current := some f, children := [] }
      = some ({ parents := [],
                current := some (setDelay (setSteps f ns 0)
                  (if 0 < d then now + d else f.delayUntil)),
                children := [] }, true)
    ∧ suspend ns d now { parents := p :: ps, current := some f, children := [] }
      = some ({ parents := ps,
                current := some (setDelay p
                  (if 0 < d then now + d else p.delayUntil)),
                children := [setSteps f ns 0] },
          if p.currentStep = stepFailure then false else true)
    ∧ suspend ns d now { parents := [], current := some f, children := c :: cs }
      = some ({ parents := [],
                current := some (setDelay (setSteps f f.currentStep ns)
                  (if 0 < d then now + d else f.delayUntil)),
                children := c :: cs },
          if f.currentStep = stepFailure then false else true) := by
  have hns0' : ¬ns = 0 := hns0
  have hns1' : ns ≠ 101 := hns1
  have hns2' : ns ≠ 102 := hns2
  have hc1' : c.currentStep ≠ 101 := hc1
  have hc2' : c.currentStep ≠ 102 := hc2
  refine ⟨?_, ?_, ?_⟩ <;>
    · by_cases hd : 0 < d
      all_goals
        simp only [suspend, popState, setCurrentDelay, transitionState,
          setSteps, setDelay, stepSuccess, stepFailure, hd, hns0', hns1',
          hns2', hc1', hc2', hfd, hcd, Nat.mod_eq_of_lt hover,
          List.isEmpty_cons, List.isEmpty_nil, Option.some_bind, ne_eq,
          not_false_eq_true, not_true_eq_false, and_true, and_false, and_self,
          true_and, false_and, ite_true, ite_false, if_true, if_false,
          Bool.false_eq_true]

/-- Witness for C5 at concrete inputs: root `A` at step 5 with no child
(conjunct 1), a frame below parent `P` (conjunct 2), and a root with an
outstanding child `B` (conjunct 3), all with `nextStep = 7`, `delay = 10`,
`now = 100`. -/
theorem suspend_spec_witness :
    suspend 7 10 100 smA5
      = some ({ parents := [], current := some ⟨"A", 7, 0, 110, 0, 0, 0, ""⟩,
                children := [] }, true)
    ∧ suspend 7 10 100 { smA5 with parents := [createState "P" 3] }
      = some ({ parents := [], current := some ⟨"P", 3, 0, 110, 0, 0, 0, ""⟩,
                children := [⟨"A", 7, 0, 0, 0, 0, 0, ""⟩] }, true)
    ∧ suspend 7 10 100 { smA5 with children := [createState "B" 1] }
      = some ({ parents := [], current := some ⟨"A", 5, 7, 110, 0, 0, 0, ""⟩,
                children := [createState "B" 1] }, true) := by
  have h := suspend_spec (createState "A" 5) (createState "P" 3)
    (createState "B" 1) [] [] 7 10 100 (by decide) (by decide) (by decide)
    (by decide) (by decide) (by decide) (by decide) (by decide)
  exact ⟨h.1, h.2.1, h.2.2⟩

/-- The engine state for the C7 counterexample: the parent frame `A` already
failed on an earlier pass (its step is `stepFailure`), and its body then
started a fresh child `B`, now current at step 1. -/
def smC7 : StateManager :=
  { parents := [{ functionName := "A", currentStep := 102 }],
    current := some (createState "B" 1), children := [] }

/-- Counterexample to C7 as stated: `B` calls `suspend 5`.  The call returns
`false`, yet the transition check run during the call performs no transition
and changes nothing (it returns `false` and leaves the state exactly as
`popState` produced it): the ascended-to frame's step did not *become*
`FAILURE` as a result of the check — it already was `FAILURE` before the
call. -/
theorem suspend_false_counterexample :
    ((suspend 5 0 0 smC7).map fun r => r.2) = some false
    ∧ transitionState (popState 1 5 smC7) = some (popState 1 5 smC7, false)
    ∧ (∀ g ∈ smC7.parents, g.currentStep = stepFailure) := by decide

/-- C7 (amended): `suspend` returns `false` iff the frame that is current
after the pop and the transition check has step `FAILURE` — whether the
transition check just set it or it was already failed. -/
theorem suspend_false_iff_failure (sm sm' : StateManager) (ns d now : Nat)
    (b : Bool) (h : suspend ns d now sm = some (sm', b)) :
    b = false ↔ getStatus sm' = stepFailure := by
  cases hc : sm.current with
  | none => rw [suspend, hc] at h; exact absurd h (by simp)
  | some f =>
    rw [suspend, hc] at h
    dsimp only at h
    set sm2 := if 0 < d then
        setCurrentDelay ((now + d) % ulongMod) (popState f.currentStep ns sm)
      else popState f.currentStep ns sm with hsm2
    cases ht : transitionState sm2 with
    | none => rw [ht] at h; exact absurd h (by simp)
    | some rb =>
      obtain ⟨sm3, b3⟩ := rb
      rw [ht] at h
      dsimp only at h
      cases hc3 : sm3.current with
      | none => rw [hc3] at h; exact absurd h (by simp)
      | some g =>
        rw [hc3] at h
        dsimp only at h
        rw [Option.some_inj, Prod.mk.injEq] at h
        obtain ⟨h1, h2⟩ := h
        subst h1
        subst h2
        by_cases hgf : g.currentStep = 102
        · simp [getStatus, hc3, stepFailure, hgf]
        · simp [getStatus, hc3, stepFailure, hgf]

/-- Witness for C7: on a childless root at step 1, `suspend 2` returns `true`
and the resulting current step is 2, not `FAILURE`. -/
theorem suspend_false_iff_failure_witness :
    (true = false
      ↔ getStatus { parents := [],
                    current := some { functionName := "A", currentStep := 2 },
                    children := [] } = stepFailure) :=
  suspend_false_iff_failure smOne _ 2 0 0 true (by decide)

/-! ## Failure propagation (C3) -/

/-- One `end(false)` call on a current frame with no children: the frame is
marked failed; when a parent exists, control ascends and the parent's
transition check observes the failed child, marks the parent failed and
destroys the child, whatever the parent's pending `nextStep` was. -/
lemma end_false_step (ps : List FunctionState) (c : FunctionState) :
    ∃ c', end' false { parents := ps, current := some c, children := [] }
        = some ({ parents := ps.tail, current := some c', children := [] },
            false)
      ∧ c'.currentStep = stepFailure := by
  cases ps with
  | nil =>
    refine ⟨setSteps c stepFailure 0, ?_, rfl⟩
    simp [end', popState, transitionState, setSteps, stepFailure]
  | cons g gs =>
    by_cases hdel : c.delayUntil ≠ 0
    · refine ⟨{ setDelay g c.delayUntil with currentStep := stepFailure },
        ?_, rfl⟩
      simp [end', popState, transitionState, setDelay, stepSuccess,
        stepFailure, hdel]
    · refine ⟨{ g with currentStep := stepFailure }, ?_, rfl⟩
      simp [end', popState, transitionState, stepSuccess, stepFailure, hdel]

/-- C3: after a frame at depth `ps.length` calls `end(false)`, and each
now-failed ancestor in turn calls `end(false)`, every intermediate state has
a failed current frame (`getStatus = stepFailure` after each of the first
`k + 1` calls, for every `k ≤ ps.length`), whatever `nextStep` values were
pending in the ancestors; the failed child frame is destroyed at each
ascension (`children = []`), and the failure descends one ancestor per call
until it reaches the root (`parents.length = ps.length - (k + 1)`), where
`getStatus` observes `stepFailure`. -/
theorem end_false_propagates (ps : List FunctionState) (c : FunctionState)
    (k : Nat) (hk : k ≤ ps.length) :
    ∃ sm', endFalseIter (k + 1)
        { parents := ps, current := some c, children := [] } = some sm'
      ∧ getStatus sm' = stepFailure ∧ sm'.children = []
      ∧ sm'.parents.length = ps.length - (k + 1) := by
  induction k generalizing ps c with
  | zero =>
    obtain ⟨c', heq, hc'⟩ := end_false_step ps c
    refine ⟨{ parents := ps.tail, current := some c', children := [] },
      ?_, ?_, rfl, ?_⟩
    · simp only [endFalseIter, heq]
    · simpa [getStatus] using hc'
    · simp [List.length_tail]
  | succ k ih =>
    cases ps with
    | nil => exact absurd hk (by simp)
    | cons g gs =>
      obtain ⟨c', heq, hc'⟩ := end_false_step (g :: gs) c
      obtain ⟨sm', h1, h2, h3, h4⟩ := ih gs c' (Nat.le_of_succ_le_succ hk)
      refine ⟨sm', ?_, h2, h3, ?_⟩
      · simp only [endFalseIter, heq]
        simpa using h1
      · rw [h4]
        simp only [List.length_cons]
        omega

/-- The engine state for the C3 witness: chain `A` (root, step 3) → `B`
(step 2) → current frame `C` (step 1). -/
def smC3 : StateManager :=
  { parents := [createState "B" 2, createState "A" 3],
    current := some (createState "C" 1), children := [] }

/-- Witness for C3 on a depth-2 chain: after one, two and three `end(false)`
calls the current frame is failed, and after three the failure has reached
the root (no parents left) with every child frame destroyed. -/
theorem end_false_propagates_witness :
    ((endFalseIter 1 smC3).map getStatus = some stepFailure)
    ∧ ((endFalseIter 2 smC3).map getStatus = some stepFailure)
    ∧ ((endFalseIter 3 smC3).map getStatus = some stepFailure)
    ∧ ((endFalseIter 3 smC3).map fun s => (s.parents.length, s.children))
        = some (0, []) := by
  obtain ⟨s0, e0, f0, _, _⟩ := end_false_propagates
    [createState "B" 2, createState "A" 3] (createState "C" 1) 0 (by decide)
  obtain ⟨s1, e1, f1, _, _⟩ := end_false_propagates
    [createState "B" 2, createState "A" 3] (createState "C" 1) 1 (by decide)
  obtain ⟨s2, e2, f2, g2, p2⟩ := end_false_propagates
    [createState "B" 2, createState "A" 3] (createState "C" 1) 2 (by decide)
  refine ⟨?_, ?_, ?_, ?_⟩
  · rw [show endFalseIter 1 smC3 = some s0 from e0]
    simp [f0]
  · rw [show endFalseIter 2 smC3 = some s1 from e1]
    simp [f1]
  · rw [show endFalseIter 3 smC3 = some s2 from e2]
    simp [f2]
  · rw [show endFalseIter 3 smC3 = some s2 from e2]
    simp [g2, p2]

/-! ## Delay propagation (C6) -/

/-- A step value that is neither terminal sentinel: the frame is still an
active application step, so a transition check will not consume it. -/
def activeStep (f : FunctionState) : Prop :=
  f.currentStep ≠ stepSuccess ∧ f.currentStep ≠ stepFailure

instance (f : FunctionState) : Decidable (activeStep f) :=
  inferInstanceAs (Decidable (And _ _))

/-- One no-argument `suspend()` from an active current frame carrying a
nonzero delay: control ascends one level and the transition check moves the
delay onto the ascended-to frame, clearing it on the popped frame, which
stays in place as the (non-terminal) head child. -/
lemma suspendSame_bubble (f g : FunctionState) (gs cs : List FunctionState)
    (now : Nat) (hf : activeStep f) (hfd : f.delayUntil ≠ 0) :
    ∃ b f', suspendSame now
        { parents := g :: gs, current := some f, children := cs }
        = some ({ parents := gs, current := some (setDelay g f.delayUntil),
                  children := f' :: cs }, b)
      ∧ f'.currentStep = f.currentStep ∧ f'.delayUntil = 0
      ∧ f'.functionName = f.functionName := by
  have hf1 : f.currentStep ≠ 101 := hf.1
  have hf2 : f.currentStep ≠ 102 := hf.2
  by_cases hcond : (¬f.currentStep = 0 ∧ List.isEmpty cs = true)
  · refine ⟨if g.currentStep = 102 then false else true,
      setDelay (setSteps f f.currentStep 0) 0, ?_, rfl, rfl, rfl⟩
    simp only [suspendSame, suspend, popState, setCurrentDelay,
      transitionState, setSteps, setDelay, stepSuccess, stepFailure, hcond.1,
      hcond.2, hf1, hf2, hfd, lt_self_iff_false, Option.some_bind, ne_eq,
      not_false_eq_true, not_true_eq_false, and_true, and_false, and_self,
      true_and, false_and, ite_true, ite_false, if_true, if_false,
      Bool.false_eq_true]
  · refine ⟨if g.currentStep = 102 then false else true,
      setDelay (setSteps f f.currentStep f.currentStep) 0, ?_, rfl, rfl, rfl⟩
    simp only [suspendSame, suspend, popState, setCurrentDelay,
      transitionState, setSteps, setDelay, stepSuccess, stepFailure, hcond,
      hf1, hf2, hfd, lt_self_iff_false, Option.some_bind, ne_eq,
      not_false_eq_true, not_true_eq_false, and_true, and_false, and_self,
      true_and, false_and, ite_true, ite_false, if_true, if_false,
      Bool.false_eq_true]

/-- Iterating `suspend()` from a frame holding a nonzero delay at depth
`ps.length`: after `k` ascensions the delay sits exactly on the current
frame, `k` levels up, and every other reachable frame's delay is zero. -/
lemma suspendIter_bubble (k : Nat) (ps cs : List FunctionState)
    (f : FunctionState) (now : Nat) (hf : activeStep f)
    (hfd : f.delayUntil ≠ 0) (hps : ∀ g ∈ ps, activeStep g ∧ g.delayUntil = 0)
    (hcs : ∀ g ∈ cs, g.delayUntil = 0) (hk : k ≤ ps.length) :
    ∃ sm' cur, suspendIter k now
        { parents := ps, current := some f, children := cs } = some sm'
      ∧ sm'.current = some cur ∧ cur.delayUntil = f.delayUntil
      ∧ sm'.parents = ps.drop k
      ∧ (∀ g ∈ sm'.children, g.delayUntil = 0)
      ∧ (∃ orig rest, (f :: ps).drop k = orig :: rest
          ∧ cur.functionName = orig.functionName
          ∧ cur.currentStep = orig.currentStep) := by
  induction k generalizing ps cs f with
  | zero =>
    exact ⟨_, f, rfl, rfl, rfl, by simp, hcs, f, ps, by simp, rfl, rfl⟩
  | succ k ih =>
    cases ps with
    | nil => exact absurd hk (by simp)
    | cons g gs =>
      obtain ⟨hga, hgd⟩ := hps g (List.mem_cons_self g gs)
      obtain ⟨b, f', heq, hfs, hfd0, hfn⟩ :=
        suspendSame_bubble f g gs cs now hf hfd
      have hga' : activeStep (setDelay g f.delayUntil) := by
        simpa [activeStep, setDelay] using hga
      have hcs' : ∀ x ∈ f' :: cs, x.delayUntil = 0 := by
        intro x hx
        rcases List.mem_cons.mp hx with h | h
        · rw [h]; exact hfd0
        · exact hcs x h
      obtain ⟨sm', cur, h1, h2, h3, h4, h5, orig, rest, h6, h7, h8⟩ :=
        ih gs (f' :: cs) (setDelay g f.delayUntil) hga' hfd
          (fun x hx => hps x (List.mem_cons_of_mem g hx)) hcs'
          (Nat.le_of_succ_le_succ hk)
      refine ⟨sm', cur, ?_, h2, ?_, ?_, h5, ?_⟩
      · simp only [suspendIter, heq]
        simpa using h1
      · simpa [setDelay] using h3
      · rw [h4]
        simp [List.drop_succ_cons]
      · rw [List.drop_succ_cons]
        cases k with
        | zero =>
          simp only [List.drop_zero] at h6 ⊢
          obtain ⟨ho, hr⟩ := List.cons.injEq .. ▸ h6
          refine ⟨g, gs, rfl, ?_, ?_⟩
          · rw [h7, ← ho]; simp [setDelay]
          · rw [h8, ← ho]; simp [setDelay]
        | succ k' =>
          rw [List.drop_succ_cons] at h6 ⊢
          exact ⟨orig, rest, h6, h7, h8⟩

/-- C6: a nonzero `delayUntil` on an active frame at depth `ps.length` below
the root becomes the current (root-position) frame's delay after exactly
`ps.length` `suspend` ascensions — after `k ≤ ps.length` ascensions it sits
on the current frame at depth `ps.length - k`, the frame occupying the
original chain position `k` levels up — and every other reachable frame's
`delayUntil` is zero afterwards: no frame retains a delay its ancestor has
already consumed. -/
theorem delay_bubbles_to_root (ps : List FunctionState) (f : FunctionState)
    (now k : Nat) (hf : activeStep f) (hfd : f.delayUntil ≠ 0)
    (hps : ∀ g ∈ ps, activeStep g ∧ g.delayUntil = 0) (hk : k ≤ ps.length) :
    ∃ sm' cur, suspendIter k now
        { parents := ps, current := some f, children := [] } = some sm'
      ∧ sm'.current = some cur ∧ cur.delayUntil = f.delayUntil
      ∧ sm'.parents = ps.drop k
      ∧ (∀ g ∈ sm'.parents, g.delayUntil = 0)
      ∧ (∀ g ∈ sm'.children, g.delayUntil = 0)
      ∧ (∃ orig rest, (f :: ps).drop k = orig :: rest
          ∧ cur.functionName = orig.functionName
          ∧ cur.currentStep = orig.currentStep) := by
  obtain ⟨sm', cur, h1, h2, h3, h4, h5, h6⟩ :=
    suspendIter_bubble k ps [] f now hf hfd hps (by simp) hk
  refine ⟨sm', cur, h1, h2, h3, h4, ?_, h5, h6⟩
  intro g hg
  rw [h4] at hg
  exact (hps g (List.mem_of_mem_drop hg)).2

/-- The deepest frame for the C6 witness: `C` at step 4 holding a 500-tick
delay. -/
def fC6 : FunctionState := ⟨"C", 4, 0, 500, 0, 0, 0, ""⟩

/-- Witness for C6 on a depth-2 chain: after the two `suspend()` ascensions
the 500-tick delay sits on the current frame, which occupies the root's
original chain position (`A`, step 3, no parents left), and every other
reachable frame's delay is zero. -/
theorem delay_bubbles_to_root_witness :
    ∃ sm' cur, suspendIter 2 0
        { parents := [createState "B" 2, createState "A" 3],
          current := some fC6, children := [] } = some sm'
      ∧ sm'.current = some cur ∧ cur.delayUntil = fC6.delayUntil
      ∧ sm'.parents = [createState "B" 2, createState "A" 3].drop 2
      ∧ (∀ g ∈ sm'.parents, g.delayUntil = 0)
      ∧ (∀ g ∈ sm'.children, g.delayUntil = 0)
      ∧ (∃ orig rest,
          (fC6 :: [createState "B" 2, createState "A" 3]).drop 2
            = orig :: rest
          ∧ cur.functionName = orig.functionName
          ∧ cur.currentStep = orig.currentStep) :=
  delay_bubbles_to_root [createState "B" 2, createState "A" 3] fC6 0 2
    (by decide) (by decide) (by decide) (by decide)

end StateMgr
